import Mathlib

/-!
Verification of the `payload_extract` Go repository against its specification.

The definitions below are a shallow embedding of the source files:
* `src/go.mod` (concatenated with the main extraction engine `extract.go`):
  `PayloadHdr`, `InitPayloadInfo`, `write_zero`, `extractOperationToFile`,
  `extractPartitionFromPayload`, `ExtractPartitionsFromPayload`, `last`;
* `src/unnamed/part_002`: `ZipPayloadReader.ReadAt`;
* `src/unnamed/part_001`: `RangeReadSeeker.tryInitialRangeRequest`.

Files are byte lists (a byte is a `Nat` < 256 in every use below); Go's
`os.File` positioned-write/truncate semantics (zero fill on extension) are
modelled explicitly.  Protobuf decoding and the bzip2/xz codecs are external
libraries, so they enter as function parameters (`unmarshal`, `Codec`).
The worker pool runs the per-operation tasks against disjoint destination
extents; the model runs them sequentially in submission order, which is
observationally the same for the file contents.
-/

namespace PayloadExtract

/-! ## Data model (protobuf `update_engine` messages, fields the core consumes) -/

/-- `Extent`: `start_block`, `num_blocks` (update_metadata.proto). -/
structure Extent where
  startBlock : Nat
  numBlocks : Nat
deriving DecidableEq

/-- `InstallOperation.Type` values the core handles; `UNKNOWN` stands for
every other enum value (the `default:` arm of the Go switch). -/
inductive OpType
  | REPLACE
  | REPLACE_BZ
  | REPLACE_XZ
  | ZERO
  | UNKNOWN
deriving DecidableEq

/-- `InstallOperation`: type, `data_offset`, `data_length`, `dst_extents`. -/
structure InstallOperation where
  type : OpType
  dataOffset : Nat
  dataLength : Nat
  dstExtents : List Extent
deriving DecidableEq

/-- `PartitionUpdate`: `partition_name` and `operations`. -/
structure PartitionUpdate where
  partitionName : String
  operations : List InstallOperation
deriving DecidableEq

/-- `DeltaArchiveManifest`, restricted to the fields the extractor consumes. -/
structure Manifest where
  blockSize : Nat
  minorVersion : Nat
  partitions : List PartitionUpdate
deriving DecidableEq

/-! ## File model

A file is its byte list.  `os.Create` yields `[]`; `Truncate` zero-fills on
extension; `WriteAt` beyond EOF zero-fills the gap (POSIX pwrite semantics,
which Go's `os.File` provides). -/

/-- `fd.Truncate(n)`: extend with zero bytes or cut to length `n`. -/
def truncateFile (f : List Nat) (n : Nat) : List Nat :=
  if f.length ≤ n then f ++ List.replicate (n - f.length) 0 else f.take n

/-- `writer.WriteAt(data, off)`: positioned write, zero-filling any gap
between EOF and `off`. -/
def writeAt (f : List Nat) (data : List Nat) (off : Nat) : List Nat :=
  let g := if f.length < off + data.length
    then f ++ List.replicate (off + data.length - f.length) 0 else f
  g.take off ++ data ++ g.drop (off + data.length)

/-- The shared 1 MiB zero buffer (`var zero_buffer = make([]byte, 1<<20)`). -/
def zeroBufLen : Nat := 1048576

/-- Loop body of `write_zero` (src/go.mod lines 160-179): write `size` zero
bytes at `offset` in chunks of at most `zeroBufLen`, returning the file and
`total_write`.  Each iteration writes at least one byte, so `size` units of
fuel always reach the exit branch; the fuel only makes the recursion
structural. -/
def write_zero_loop : Nat → List Nat → Nat → Nat → Nat → List Nat × Nat
  | 0, f, _, total_write, _ => (f, total_write)
  | fuel + 1, f, offset, total_write, size =>
    if total_write < size then
      let bytesToWrite := min zeroBufLen (size - total_write)
      write_zero_loop fuel (writeAt f (List.replicate bytesToWrite 0) (total_write + offset))
        offset (total_write + bytesToWrite) size
    else (f, total_write)

/-- `write_zero(writer, size, offset)`: writes `size` zero bytes starting at
byte `offset`, returning the new file and the byte count written. -/
def write_zero (f : List Nat) (size offset : Nat) : List Nat × Nat :=
  write_zero_loop size f offset 0 size

/-! ## Per-operation codec dispatch (`extractOperationToFile`) -/

/-- The bzip2 / xz decompressors (`compress/bzip2`, `go-xz`) are external;
an `Except`-valued function stands for them (errors model codec failures). -/
abbrev Codec := OpType → List Nat → Except String (List Nat)

/-- `extractOperationToFile` (src/go.mod lines 181-237): dispatch one install
operation against the output file.  Returns the updated file and `write_len`
(the byte count fed to the progress bar).  NOTE the `ZERO` arm passes
`ext.NumBlocks` — not `NumBlocks * block_size` — as the `write_zero` size,
exactly as the source does (`write_zero(writer, int64(num_blocks),
int64(out_seek))`). -/
def extractOperationToFile (dec : Codec) (operation : InstallOperation)
    (f : List Nat) (out_offset : Nat) (block_size : Nat) (data : List Nat) :
    Except String (List Nat × Nat) :=
  match operation.type with
  | .REPLACE => .ok (writeAt f data out_offset, data.length)
  | .ZERO =>
    .ok (operation.dstExtents.foldl
      (fun acc ext =>
        let out_seek := ext.startBlock * block_size
        let num_blocks := ext.numBlocks
        let r := write_zero acc.1 num_blocks out_seek
        (r.1, acc.2 + r.2))
      (f, 0))
  | .REPLACE_BZ =>
    match dec .REPLACE_BZ data with
    | .ok out => .ok (writeAt f out out_offset, out.length)
    | .error e => .error e
  | .REPLACE_XZ =>
    match dec .REPLACE_XZ data with
    | .ok out => .ok (writeAt f out out_offset, out.length)
    | .error e => .error e
  | .UNKNOWN => .error "invalid payload: unexpcted data type"

/-! ## Sorting the operations (`sort.Slice` by `DataOffset`) -/

/-- Comparator of `sort.Slice(operations, ...)`: order by `data_offset`.
(`sort.Slice` uses the strict `<` form of this ordering and is unstable;
any sort producing a `data_offset`-nondecreasing permutation models it.) -/
def opLE (a b : InstallOperation) : Prop := a.dataOffset ≤ b.dataOffset

instance : DecidableRel opLE := fun a b => Nat.decLe a.dataOffset b.dataOffset

instance : IsTotal InstallOperation opLE :=
  ⟨fun a b => Nat.le_total a.dataOffset b.dataOffset⟩

instance : IsTrans InstallOperation opLE :=
  ⟨fun _ _ _ h h2 => Nat.le_trans h h2⟩

/-- The sorted operation list of `extractPartitionFromPayload`. -/
def sortOps (ops : List InstallOperation) : List InstallOperation :=
  ops.insertionSort opLE

/-! ## Reading operation data from the source -/

/-- `data := make([]byte, data_len); reader.Read(data)` with the reader
positioned at absolute source offset `off`: the buffer is `data_len` long;
bytes past the end of the source remain the zeros `make` produced. -/
def readOpData (source : List Nat) (off len : Nat) : List Nat :=
  let r := (source.drop off).take len
  r ++ List.replicate (len - r.length) 0

/-- Go `last[T any](s []T)` (src/go.mod lines 313-320) specialised with a
default element (the Go version returns the zero value — a nil pointer whose
later field access would panic; every claim below supplies nonempty lists). -/
def lastD {α : Type} (s : List α) (d : α) : α := s.getLastD d

/-- `total_length` of `ExtractPartitionsFromPayload` (src/go.mod lines
361-366): `(last_extents.StartBlock + last_extents.NumBlocks) * block_size`
taken from the LAST operation of the partition, in manifest order. -/
def totalLengthOf (p : PartitionUpdate) (block_size : Nat) : Nat :=
  let last_operation := lastD p.operations ⟨.UNKNOWN, 0, 0, []⟩
  let last_extents := lastD last_operation.dstExtents ⟨0, 0⟩
  (last_extents.startBlock + last_extents.numBlocks) * block_size

/-- End block of an operation's last destination extent
(`dst_extents.last.start_block + num_blocks`). -/
def opEndBlocks (op : InstallOperation) : Nat :=
  let e := lastD op.dstExtents ⟨0, 0⟩
  e.startBlock + e.numBlocks

/-- Modelled from the spec's words for claim C2 only (`§8` invariant 2):
`Σ_max over ops (dst_extents.last.start_block + num_blocks) * block_size`.
To be compared with `totalLengthOf`, the embedding of the source. -/
def specMaxSize (p : PartitionUpdate) (block_size : Nat) : Nat :=
  (p.operations.foldl (fun acc op => max acc (opEndBlocks op)) 0) * block_size

/-! ## Per-partition extraction, file-content view
(`extractPartitionFromPayload`, src/go.mod lines 239-311)

`source` is the data-blob region (the reader after the parser, re-seeked to
`baseoff`); the cursor arithmetic `Seek(data_offset - curr, SeekCurrent)`
positions each read at absolute blob offset `data_offset` (proved as claim
C5 over `readScheduleAux` below), so the content view reads there directly.
A failed operation is logged and leaves the file as the other operations
made it. -/

def extractPartitionFromPayload (dec : Codec) (source : List Nat)
    (block_size : Nat) (partition : PartitionUpdate) (total_size : Nat) :
    List Nat :=
  let fd := truncateFile [] total_size
  (sortOps partition.operations).foldl
    (fun f operation =>
      let data := readOpData source operation.dataOffset operation.dataLength
      let out_offset := (operation.dstExtents.headD ⟨0, 0⟩).startBlock * block_size
      match extractOperationToFile dec operation f out_offset block_size data with
      | .ok r => r.1
      | .error _ => f)
    fd

/-! ## Source read schedule (claim C5)

`extractPartitionFromPayload` tracks `curr_data_offset` and issues
`reader.Seek(int64(data_offset)-curr, io.SeekCurrent)` then reads
`data_length` bytes.  `readScheduleAux` replays that arithmetic: `pos` is
the reader's absolute position, `curr` the Go cursor; a full read advances
both by `data_length`. -/

/-- One source access: the relative seek issued, the absolute position the
read starts at, and the read length. -/
structure ReadRec where
  seekDelta : Int
  readPos : Int
  len : Nat
deriving DecidableEq

def readScheduleAux (pos curr : Int) : List InstallOperation → List ReadRec
  | [] => []
  | operation :: rest =>
    let delta : Int := (operation.dataOffset : Int) - curr
    let rpos := pos + delta
    ⟨delta, rpos, operation.dataLength⟩ ::
      readScheduleAux (rpos + operation.dataLength)
        ((operation.dataOffset : Int) + operation.dataLength) rest

/-- The accesses `extractPartitionFromPayload` performs on the source for one
partition: the reader starts at `base` (`reader.Seek(baseoff, SeekStart)`),
the cursor at `0`, and the operations are first sorted by `data_offset`. -/
def readSchedule (base : Int) (ops : List InstallOperation) : List ReadRec :=
  readScheduleAux base 0 (sortOps ops)

/-! ## Payload header and parser (`InitPayloadInfo`, src/go.mod lines 78-118) -/

/-- `PAYLOAD_MAGIC = "CrAU"` as bytes. -/
def MAGIC : List Nat := [67, 114, 65, 85]

/-- Big-endian byte list to `Nat` (`binary.BigEndian`). -/
def beToNat (bs : List Nat) : Nat := bs.foldl (fun acc b => acc * 256 + b % 256) 0

/-- The 24 header bytes `binary.Read` decodes.  On a short input
`binary.Read` fails without filling the struct, and `InitPayloadInfo`
discards that error, leaving the zero header — hence the zero bytes. -/
def hdrBytes (p : List Nat) : List Nat :=
  if p.length < 24 then List.replicate 24 0 else p.take 24

def hdrMagic (p : List Nat) : List Nat := (hdrBytes p).take 4

def hdrVersion (p : List Nat) : Nat := beToNat (((hdrBytes p).drop 4).take 8)

def hdrManifestLen (p : List Nat) : Nat := beToNat (((hdrBytes p).drop 12).take 8)

def hdrSigLen (p : List Nat) : Nat := beToNat ((hdrBytes p).drop 20)

/-- `InitPayloadInfo`: validate the header, decode the manifest (protobuf
`Unmarshal` enters as the parameter `unmarshal`), reject delta payloads.
The returned `Bool` records whether the non-fatal version warning was
logged (`hdr.Version != 2`). -/
def InitPayloadInfo (unmarshal : List Nat → Except String Manifest)
    (p : List Nat) : Except String (Manifest × Bool) :=
  if hdrMagic p ≠ MAGIC then .error "invalid payload: invalid magic"
  else
    let warn := hdrVersion p != 2
    if hdrManifestLen p = 0 then .error "invalid payload: manifest length is zero"
    else if hdrSigLen p = 0 then .error "invalid payload: manifest signature length is zero"
    else if p.length ≤ 24 then .error "EOF"
    else
      match unmarshal (readOpData p 24 (hdrManifestLen p)) with
      | .error e => .error e
      | .ok manifest =>
        if manifest.minorVersion ≠ 0 then
          .error "invalid payload: delta payloads are not supported, please use a full payload file"
        else .ok (manifest, warn)

/-! ## Whole-run control flow as an event trace
(`ExtractPartitionsFromPayload`, src/go.mod lines 322-394)

The filesystem and codec outcomes an individual run meets are abstracted
into an oracle; the trace records the externally visible actions in program
order.  `log.Fatalln` ends the trace (nothing follows a `fatal` event). -/

/-- Success/failure oracle for the filesystem and codec calls. -/
structure FsOracle where
  createOk : String → Bool
  truncateOk : String → Bool
  opOk : InstallOperation → Bool

/-- Externally visible actions of a run. -/
inductive Event
  | removeAll (dir : String)
  | mkdirAll (dir : String)
  | fatal (msg : String)
  | createFile (path : String)
  | removeFile (path : String)
  | opDone
  | opError
  | partitionError (msg : String)
  | partitionDone (name : String)
deriving DecidableEq

/-- Partition selection (src/go.mod lines 341-349): empty list means all,
otherwise filter by `slices.Contains(partitions_name, p.PartitionName)`. -/
def selectParts (parts : List PartitionUpdate) (names : List String) :
    List PartitionUpdate :=
  match names with
  | [] => parts
  | _ => parts.filter (fun p => names.contains p.partitionName)

/-- Control-flow view of `extractPartitionFromPayload`: `os.Create` failure
returns the error with no file made; `Truncate` failure removes the file and
returns the error; otherwise every sorted operation is read and submitted,
a failing task is logged (`Logger.Printf`) and the loop continues.  Returns
the events and the error the function returns, if any. -/
def extractPartitionEvents (o : FsOracle) (partition : PartitionUpdate)
    (out_path : String) : List Event × Option String :=
  if o.createOk out_path = false then
    ([], some ("create " ++ out_path))
  else if o.truncateOk out_path = false then
    ([Event.createFile out_path, Event.removeFile out_path],
     some ("truncate " ++ out_path))
  else
    (Event.createFile out_path ::
      (sortOps partition.operations).map
        (fun operation => if o.opOk operation then Event.opDone else Event.opError),
     none)

/-- The per-partition loop of `ExtractPartitionsFromPayload` (lines 358-391):
an error from `extractPartitionFromPayload` is logged (`log.Println(err)`)
and the loop continues with the next partition. -/
def partsEvents (o : FsOracle) (out_dir : String) :
    List PartitionUpdate → List Event
  | [] => []
  | p :: rest =>
    let out_path := out_dir ++ "/" ++ p.partitionName ++ ".img"
    let r := extractPartitionEvents o p out_path
    r.1 ++ (match r.2 with
            | some e => [Event.partitionError e]
            | none => []) ++
      [Event.partitionDone p.partitionName] ++ partsEvents o out_dir rest

/-- `ExtractPartitionsFromPayload`: `os.RemoveAll(out_dir)` and
`os.MkdirAll(out_dir, 0777)` run first; a parser error hits `log.Fatalln`
and ends the run; otherwise every selected partition is processed. -/
def ExtractPartitionsFromPayloadEvents
    (unmarshal : List Nat → Except String Manifest) (payload : List Nat)
    (partitions_name : List String) (out_dir : String) (o : FsOracle) :
    List Event :=
  [Event.removeAll out_dir, Event.mkdirAll out_dir] ++
    match InitPayloadInfo unmarshal payload with
    | .error e => [Event.fatal e]
    | .ok r => partsEvents o out_dir (selectParts r.1.partitions partitions_name)

/-! ## ZIP payload reader (`ZipPayloadReader`, src/unnamed/part_002)

`entry` is the decompressed content of the `payload.bin` member, `raw` the
underlying archive bytes.  An open deflate stream is `some c` where `c` is
the count of decompressed bytes already consumed from it (a fresh
`zf.Open()` has `c = 0`; `io.CopyN(io.Discard, stream, off)` raises it to
`off`).  The mutex serialises calls; one call is modelled. -/

structure ZipPayloadReader where
  methodStore : Bool
  entry : List Nat
  raw : List Nat
  dataoff : Nat
  pos : Nat
  stream : Option Nat
  streamStart : Nat
  streamOffset : Nat
deriving DecidableEq

/-- Result of one `ReadAt` call: the next state, the bytes delivered and
their count, plus whether the stream was reopened and how many decompressed
bytes the reopening discarded. -/
structure ReadAtResult where
  state : ZipPayloadReader
  bytes : List Nat
  n : Nat
  reopened : Bool
  discarded : Nat
deriving DecidableEq

/-- `ZipPayloadReader.ReadAt` (src/unnamed/part_002 lines 27-63).  Store
members delegate to `or.ReadAt(p, dataoff+off)`; deflated members reuse the
open stream when `streamStart + streamOffset == off` and otherwise close it,
reopen, and discard `off` bytes. -/
def ZipPayloadReader.ReadAt (r : ZipPayloadReader) (bufLen : Nat) (off : Nat) :
    ReadAtResult :=
  if r.methodStore then
    let bytes := (r.raw.drop (r.dataoff + off)).take bufLen
    ⟨{ r with pos := r.pos + bytes.length }, bytes, bytes.length, false, 0⟩
  else
    if r.stream.isNone || (r.streamStart + r.streamOffset != off) then
      let r2 : ZipPayloadReader :=
        { r with stream := some off, streamStart := off, streamOffset := 0 }
      let bytes := (r2.entry.drop off).take bufLen
      let writelen := bytes.length
      ⟨{ r2 with stream := some (off + writelen),
                 streamOffset := r2.streamOffset + writelen,
                 pos := r2.pos + writelen },
       bytes, writelen, true, off⟩
    else
      let c := r.stream.getD 0
      let bytes := (r.entry.drop c).take bufLen
      let writelen := bytes.length
      ⟨{ r with stream := some (c + writelen),
                streamOffset := r.streamOffset + writelen,
                pos := r.pos + writelen },
       bytes, writelen, false, 0⟩

/-! ## HTTP range reader initialization
(`RangeReadSeeker.tryInitialRangeRequest`, src/unnamed/part_001 lines
316-385)

The `GET` with `Range: bytes=0-0` was already issued; `HttpResponse` is what
the server answered.  `contentLength` is the value `strconv.ParseInt` gets
from the `Content-Length` header (`none` when the header is absent;
an unparsable header yields `some 0`, since the parse error is discarded
and `parsedSize` stays `0`).  `contentRange` is the `Sscanf`-parsed
`Content-Range` (`none` when the header is missing or unparsable; a `*`
total parses as `(a, b, none)`). -/

structure HttpResponse where
  statusCode : Nat
  status : String
  contentLength : Option Nat
  contentRange : Option (Nat × Nat × Option Nat)
  acceptRanges : String
deriving DecidableEq

structure RangeReadSeeker where
  size : Nat
  acceptRanges : String
  initialError : Option String
deriving DecidableEq

def tryInitialRangeRequest (r : RangeReadSeeker) (resp : HttpResponse) :
    RangeReadSeeker :=
  if resp.statusCode ≠ 206 then
    if resp.statusCode = 200 then
      match resp.contentLength with
      | some parsedSize =>
        if 0 < parsedSize then
          { r with size := parsedSize, acceptRanges := "",
                   initialError := some ("初始 Range 请求返回 " ++ resp.status ++
                     " 而不是 206 Partial Content，服务器可能不支持 Range") }
        else
          { r with initialError := some ("初始 Range 请求的响应状态码不是 206 Partial Content: " ++ resp.status) }
      | none =>
        { r with initialError := some ("初始 Range 请求的响应状态码不是 206 Partial Content: " ++ resp.status) }
    else
      { r with initialError := some ("初始 Range 请求的响应状态码不是 206 Partial Content: " ++ resp.status) }
  else
    let r2 := { r with acceptRanges := resp.acceptRanges }
    match resp.contentRange with
    | none =>
      { r2 with initialError := some "初始 Range 请求的响应中缺少 Content-Range 头" }
    | some (_, _, none) =>
      { r2 with initialError := some "Content-Range 表明文件总大小未知，无法支持 Seek" }
    | some (_, _, some total) =>
      if 0 < total then { r2 with size := total, initialError := none }
      else { r2 with initialError := some "无法从 Content-Range 解析文件总大小" }

/-! ## Substring search (for claims about error-message wording) -/

/-- `needle` starts `hay`. -/
def startsSeq : List Char → List Char → Bool
  | [], _ => true
  | _ :: _, [] => false
  | a :: as, b :: bs => a = b && startsSeq as bs

/-- `needle` occurs contiguously inside `hay`. -/
def containsSeq (needle : List Char) : List Char → Bool
  | [] => startsSeq needle []
  | b :: bs => startsSeq needle (b :: bs) || containsSeq needle bs

/-! ## Event classifiers used by the control-flow theorems -/

def isPartitionDone : Event → Bool
  | .partitionDone _ => true
  | _ => false

def isOpEvent : Event → Bool
  | .opDone => true
  | .opError => true
  | _ => false

/-! ## Concrete inputs used by the theorems below -/

/-- Stand-in codec; never consulted by the REPLACE / ZERO paths. -/
def trivDec : Codec := fun _ _ => .error "codec unavailable"

/-- Scenario S1's operation: `ZERO`, one extent `start_block=0, num_blocks=4`. -/
def zeroOpS1 : InstallOperation := ⟨.ZERO, 0, 0, [⟨0, 4⟩]⟩

/-- Scenario S2's operation: `REPLACE`, `data_offset=0`, `data_length=8`,
`dst_extents=[{start_block=2, num_blocks=1}]`. -/
def s2Op : InstallOperation := ⟨.REPLACE, 0, 8, [⟨2, 1⟩]⟩

/-- Scenario S2's partition `vendor`. -/
def vendorPart : PartitionUpdate := ⟨"vendor", [s2Op]⟩

/-- Scenario S2's data-blob region: the eight bytes `0x01..0x08`. -/
def s2Source : List Nat := [1, 2, 3, 4, 5, 6, 7, 8]

/-- A partition whose first operation reaches block 6 but whose LAST
operation only reaches block 2. -/
def opHigh : InstallOperation := ⟨.REPLACE, 0, 0, [⟨5, 1⟩]⟩

def opLow : InstallOperation := ⟨.REPLACE, 100, 0, [⟨1, 1⟩]⟩

def pC2 : PartitionUpdate := ⟨"p", [opHigh, opLow]⟩

/-- `pC2` with its operations listed in the opposite manifest order. -/
def pC2rev : PartitionUpdate := ⟨"p", [opLow, opHigh]⟩

/-- A minimal valid raw payload: magic `CrAU`, version 2, manifest length 1,
signature length 1, then one manifest byte and one signature byte. -/
def p26 : List Nat :=
  [67, 114, 65, 85, 0, 0, 0, 0, 0, 0, 0, 2, 0, 0, 0, 0, 0, 0, 0, 1, 0, 0, 0, 1, 0, 0]

/-- `p26` with header version 3 instead of 2. -/
def p26v3 : List Nat :=
  [67, 114, 65, 85, 0, 0, 0, 0, 0, 0, 0, 3, 0, 0, 0, 0, 0, 0, 0, 1, 0, 0, 0, 1, 0, 0]

def opSimple : InstallOperation := ⟨.REPLACE, 0, 0, [⟨0, 1⟩]⟩

def partA3 : PartitionUpdate := ⟨"A", [opSimple]⟩

def partB3 : PartitionUpdate := ⟨"B", [opSimple]⟩

/-- Manifest with two partitions `A` and `B`, `minor_version = 0`. -/
def m3 : Manifest := ⟨4096, 0, [partA3, partB3]⟩

/-- Unmarshal stub decoding every buffer to `m3`. -/
def u3 : List Nat → Except String Manifest := fun _ => .ok m3

/-- Manifest with `minor_version = 1` (a delta payload). -/
def m7 : Manifest := ⟨4096, 1, []⟩

/-- Unmarshal stub decoding every buffer to `m7`. -/
def u7 : List Nat → Except String Manifest := fun _ => .ok m7

/-- Manifest with `minor_version = 0` and no partitions. -/
def m8 : Manifest := ⟨4096, 0, []⟩

/-- Unmarshal stub decoding every buffer to `m8`. -/
def u8 : List Nat → Except String Manifest := fun _ => .ok m8

/-- Oracle under which every filesystem and codec call succeeds. -/
def oAll : FsOracle := ⟨fun _ => true, fun _ => true, fun _ => true⟩

/-- Oracle under which only `os.Create("out/A.img")` fails. -/
def o3 : FsOracle := ⟨fun s => s != "out/A.img", fun _ => true, fun _ => true⟩

/-- Deflated-member reader state with an open stream that has consumed two
bytes (`streamStart = 0`, `streamOffset = 2`). -/
def r9 : ZipPayloadReader := ⟨false, [10, 20, 30, 40, 50], [], 0, 2, some 2, 0, 2⟩

def emptyRangeReader : RangeReadSeeker := ⟨0, "", none⟩

/-- A `200 OK` answer to the `Range: bytes=0-0` probe carrying no
`Content-Length` header. -/
def respNoCL : HttpResponse := ⟨200, "200 OK", none, none, ""⟩

/-- A `200 OK` answer carrying `Content-Length: 1000`. -/
def respCL : HttpResponse := ⟨200, "200 OK", some 1000, none, ""⟩

/-- The wording claim C10 looks for ("the server may not support Range"). -/
def maySupportPhrase : String := "服务器可能不支持 Range"

/-! # Helper lemmas -/

/-- The read schedule's absolute positions: with the reader at
`pos = base + curr`, every operation of the list is read at
`base + data_offset`. -/
theorem readScheduleAux_map_readPos (base : Int) :
    ∀ (l : List InstallOperation) (pos curr : Int), pos = base + curr →
      (readScheduleAux pos curr l).map ReadRec.readPos
        = l.map (fun operation => base + (operation.dataOffset : Int))
  | [], _, _, _ => rfl
  | operation :: rest, pos, curr, h => by
    simp only [readScheduleAux, List.map_cons, List.map, List.cons.injEq]
    constructor
    · omega
    · have := readScheduleAux_map_readPos base rest
        (pos + ((operation.dataOffset : Int) - curr) + operation.dataLength)
        ((operation.dataOffset : Int) + operation.dataLength) (by omega)
      simpa using this

/-- The read schedule's lengths are the operations' `data_length`s. -/
theorem readScheduleAux_map_len :
    ∀ (l : List InstallOperation) (pos curr : Int),
      (readScheduleAux pos curr l).map ReadRec.len = l.map InstallOperation.dataLength
  | [], _, _ => rfl
  | operation :: rest, pos, curr => by
    simp only [readScheduleAux, List.map_cons, List.map, List.cons.injEq]
    simpa using readScheduleAux_map_len rest
      (pos + ((operation.dataOffset : Int) - curr) + operation.dataLength)
      ((operation.dataOffset : Int) + operation.dataLength)

/-- A positioned write of `data` at `off` into an all-zero file of size `n`
that stays inside the file. -/
theorem writeAt_replicate_zero (n off : Nat) (data : List Nat)
    (h : off + data.length ≤ n) :
    writeAt (List.replicate n 0) data off
      = List.replicate off 0 ++ data ++ List.replicate (n - (off + data.length)) 0 := by
  simp only [writeAt, List.length_replicate]
  rw [if_neg (by omega), List.take_replicate, List.drop_replicate,
    Nat.min_eq_left (by omega)]

/-- Folding `max` over values all bounded by `b`, from a start bounded by
`b`, stays bounded by `b`. -/
theorem foldl_max_le {α : Type} (g : α → Nat) (b : Nat) :
    ∀ (l : List α) (acc : Nat), acc ≤ b → (∀ x ∈ l, g x ≤ b) →
      l.foldl (fun acc x => max acc (g x)) acc ≤ b
  | [], _, hacc, _ => hacc
  | x :: xs, acc, hacc, hall => by
    refine foldl_max_le g b xs (max acc (g x)) ?_ ?_
    · exact max_le hacc (hall x (by simp))
    · exact fun y hy => hall y (by simp [hy])

/-! # Claim theorems -/

/-- Claim C5: the dispatcher sorts the partition's operations by
`data_offset` ascending; iterating with the cursor `curr` from 0 and the
relative seeks `data_offset - curr`, each operation's bytes are read from
absolute source position `base_offset + data_offset` with the operation's
`data_length`, and the read positions are monotonically non-decreasing. -/
theorem C5_sorted_monotone_reads (base : Int) (ops : List InstallOperation) :
    List.Sorted opLE (sortOps ops) ∧
    (sortOps ops).Perm ops ∧
    (readSchedule base ops).map ReadRec.readPos
      = (sortOps ops).map (fun operation => base + (operation.dataOffset : Int)) ∧
    (readSchedule base ops).map ReadRec.len
      = (sortOps ops).map InstallOperation.dataLength ∧
    List.Sorted (· ≤ ·) ((readSchedule base ops).map ReadRec.readPos) := by
  have hsorted : List.Sorted opLE (sortOps ops) := List.sorted_insertionSort opLE ops
  have hpos : (readSchedule base ops).map ReadRec.readPos
      = (sortOps ops).map (fun operation => base + (operation.dataOffset : Int)) :=
    readScheduleAux_map_readPos base (sortOps ops) base 0 (by omega)
  refine ⟨hsorted, List.perm_insertionSort opLE ops, hpos,
    readScheduleAux_map_len (sortOps ops) base 0, ?_⟩
  rw [hpos]
  exact List.Pairwise.map _
    (fun a b hab => by simp only [opLE] at hab; omega) hsorted

/-- Claim C1 (code bug): the `ZERO` arm calls
`write_zero(writer, int64(num_blocks), int64(out_seek))`, so for the S1
operation (one extent, `start_block=0`, `num_blocks=4`, block size 4096) it
writes only 4 zero bytes — the destination extent is 16384 bytes
(`totalLengthOf`), and 4 ≠ num_blocks * block_size. -/
theorem C1_zero_writes_only_num_blocks_bytes :
    extractOperationToFile trivDec zeroOpS1 [] 0 4096 []
      = .ok (List.replicate 4 0, 4) ∧
    totalLengthOf ⟨"boot", [zeroOpS1]⟩ 4096 = 16384 ∧
    (4 : Nat) ≠ 4 * 4096 :=
  ⟨rfl, rfl, by decide⟩

/-- Claim C2 counterexample: the output pre-size is computed from the LAST
operation in manifest order (`totalLengthOf`), not from the maximum over all
operations (`specMaxSize`), and it changes when the manifest order of the
same two operations is reversed. -/
theorem C2_counterexample :
    totalLengthOf pC2 4096 = 8192 ∧
    specMaxSize pC2 4096 = 24576 ∧
    totalLengthOf pC2 4096 ≠ specMaxSize pC2 4096 ∧
    totalLengthOf pC2rev 4096 ≠ totalLengthOf pC2 4096 := by
  decide

/-- Claim C2 as amended: the file is pre-sized to the LAST manifest-order
operation's last extent end times `block_size`; this equals the claimed
maximum precisely under the extra hypothesis that the last operation attains
the maximal extent end among all of the partition's operations. -/
theorem C2_amended_presize_from_last_operation (p : PartitionUpdate) (bs : Nat)
    (h : p.operations ≠ [])
    (hmax : ∀ op ∈ p.operations, opEndBlocks op ≤ opEndBlocks (p.operations.getLast h)) :
    totalLengthOf p bs = specMaxSize p bs := by
  rcases List.eq_nil_or_concat' p.operations with hnil | ⟨l, a, hl⟩
  · exact absurd hnil h
  have hlast : p.operations.getLast h = a := by
    simp [hl, List.getLast_concat]
  rw [hlast] at hmax
  have h1 : totalLengthOf p bs = opEndBlocks a * bs := by
    simp [totalLengthOf, opEndBlocks, lastD, hl, List.getLastD_concat]
  have h2 : specMaxSize p bs = opEndBlocks a * bs := by
    have hfold : (l ++ [a]).foldl (fun acc op => max acc (opEndBlocks op)) 0
        = opEndBlocks a := by
      rw [List.foldl_append]
      simp only [List.foldl_cons, List.foldl_nil]
      have hle : l.foldl (fun acc op => max acc (opEndBlocks op)) 0 ≤ opEndBlocks a :=
        foldl_max_le opEndBlocks (opEndBlocks a) l 0 (Nat.zero_le _)
          (fun x hx => hmax x (by simp [hl, hx]))
      omega
    simp [specMaxSize, hl, hfold]
  rw [h1, h2]

/-- Claim C2 witness for the amended statement, at a partition whose last
operation attains the maximal extent end. -/
theorem C2_amended_witness : totalLengthOf pC2rev 4096 = specMaxSize pC2rev 4096 :=
  C2_amended_presize_from_last_operation pC2rev 4096 (by decide) (by decide)

set_option maxRecDepth 4000 in
/-- Claim C6: a `REPLACE` operation writes its raw data buffer verbatim at
`dst_extents[0].start_block * block_size`; on scenario S2 (block size 4096,
partition `vendor`, one REPLACE of the bytes `0x01..0x08` into
`{start_block=2, num_blocks=1}`) the extracted image is 12288 bytes: 8192
zeros, the 8 data bytes, then zeros. -/
theorem C6_replace_places_verbatim :
    (∀ (dec : Codec) (op : InstallOperation) (f : List Nat) (off bs : Nat)
        (data : List Nat), op.type = OpType.REPLACE →
        extractOperationToFile dec op f off bs data
          = .ok (writeAt f data off, data.length)) ∧
    totalLengthOf vendorPart 4096 = 12288 ∧
    extractPartitionFromPayload trivDec s2Source 4096 vendorPart 12288
      = List.replicate 8192 0 ++ [1, 2, 3, 4, 5, 6, 7, 8] ++ List.replicate 4088 0 := by
  refine ⟨?_, rfl, ?_⟩
  · intro dec op f off bs data hty
    simp [extractOperationToFile, hty]
  · have hsort : sortOps vendorPart.operations = [s2Op] := rfl
    have htrunc : truncateFile [] 12288 = List.replicate 12288 (0 : Nat) := by
      simp only [truncateFile, List.length_nil, List.nil_append]
      rw [if_pos (Nat.zero_le 12288), Nat.sub_zero]
    simp only [extractPartitionFromPayload, hsort, htrunc, List.foldl_cons,
      List.foldl_nil]
    rw [show readOpData s2Source s2Op.dataOffset s2Op.dataLength
        = [1, 2, 3, 4, 5, 6, 7, 8] from rfl]
    rw [show (s2Op.dstExtents.headD ⟨0, 0⟩).startBlock * 4096 = 8192 from rfl]
    rw [show extractOperationToFile trivDec s2Op (List.replicate 12288 0) 8192 4096
          [1, 2, 3, 4, 5, 6, 7, 8]
        = .ok (writeAt (List.replicate 12288 0) [1, 2, 3, 4, 5, 6, 7, 8] 8192, 8) from
      by simp only [extractOperationToFile, s2Op]; rfl]
    rw [writeAt_replicate_zero 12288 8192 _ (by decide)]
    rw [show (12288 : Nat) - (8192 + List.length [1, 2, 3, 4, 5, 6, 7, 8]) = 4088 from
      by decide]

/-- Claim C6 witness: the REPLACE arm of the dispatch, at a concrete
operation and buffer. -/
theorem C6_witness :
    extractOperationToFile trivDec s2Op (List.replicate 4 0) 0 4096 [9]
      = .ok (writeAt (List.replicate 4 0) [9] 0, 1) :=
  C6_replace_places_verbatim.1 trivDec s2Op (List.replicate 4 0) 0 4096 [9] rfl

/-- Claim C9: on a deflated entry, a `ReadAt(buf, off)` at the expected
continuation offset (`stream` open and `streamStart + streamOffset == off`)
continues the existing stream without reopening it; any other `ReadAt`
closes the stream, opens a fresh one, discards exactly `off` bytes, and
leaves `streamStart = off` with `streamOffset` advanced by the bytes read. -/
theorem C9_zip_stream_reuse (r : ZipPayloadReader) (bufLen off : Nat)
    (hm : r.methodStore = false) :
    (∀ c, r.stream = some c → r.streamStart + r.streamOffset = off →
      (r.ReadAt bufLen off).reopened = false ∧
      (r.ReadAt bufLen off).discarded = 0 ∧
      (r.ReadAt bufLen off).bytes = (r.entry.drop c).take bufLen ∧
      (r.ReadAt bufLen off).state.streamStart = r.streamStart ∧
      (r.ReadAt bufLen off).state.streamOffset
        = r.streamOffset + (r.ReadAt bufLen off).n ∧
      (r.ReadAt bufLen off).state.stream = some (c + (r.ReadAt bufLen off).n))
    ∧ ((r.stream = none ∨ r.streamStart + r.streamOffset ≠ off) →
      (r.ReadAt bufLen off).reopened = true ∧
      (r.ReadAt bufLen off).discarded = off ∧
      (r.ReadAt bufLen off).bytes = (r.entry.drop off).take bufLen ∧
      (r.ReadAt bufLen off).state.streamStart = off ∧
      (r.ReadAt bufLen off).state.streamOffset = (r.ReadAt bufLen off).n ∧
      (r.ReadAt bufLen off).state.stream = some (off + (r.ReadAt bufLen off).n)) := by
  constructor
  · intro c hc hoff
    simp [ZipPayloadReader.ReadAt, hm, hc, hoff]
  · intro hor
    rcases hor with h | h
    · simp [ZipPayloadReader.ReadAt, hm, h]
    · simp [ZipPayloadReader.ReadAt, hm, h]

/-- Claim C9 witness: a continuation read on `r9` (open stream, consumed 2,
`streamStart + streamOffset = 2`) at offset 2. -/
theorem C9_witness :
    (r9.ReadAt 2 2).reopened = false ∧
    (r9.ReadAt 2 2).discarded = 0 ∧
    (r9.ReadAt 2 2).bytes = (r9.entry.drop 2).take 2 ∧
    (r9.ReadAt 2 2).state.streamStart = r9.streamStart ∧
    (r9.ReadAt 2 2).state.streamOffset = r9.streamOffset + (r9.ReadAt 2 2).n ∧
    (r9.ReadAt 2 2).state.stream = some (2 + (r9.ReadAt 2 2).n) :=
  (C9_zip_stream_reuse r9 2 2 rfl).1 2 rfl rfl

/-- Claim C10 counterexample: a `200 OK` answer to the `bytes=0-0` probe
with no `Content-Length` header does fail initialization, but with the
generic non-206 message, which does not say the server may not support
Range. -/
theorem C10_counterexample :
    (tryInitialRangeRequest emptyRangeReader respNoCL).initialError
      = some "初始 Range 请求的响应状态码不是 206 Partial Content: 200 OK" ∧
    containsSeq maySupportPhrase.data
      "初始 Range 请求的响应状态码不是 206 Partial Content: 200 OK".data = false := by
  exact ⟨rfl, by decide⟩

/-- Claim C10 as amended: every `200 OK` answer to the probe fails
initialization; the error says the server may not support Range exactly when
the `200` response carries a positive `Content-Length` (otherwise it is the
generic non-206-status error). -/
theorem C10_amended_200_fails (r : RangeReadSeeker) (resp : HttpResponse)
    (h200 : resp.statusCode = 200) (hst : resp.status = "200 OK") :
    (tryInitialRangeRequest r resp).initialError.isSome = true ∧
    (∀ n, resp.contentLength = some n → 0 < n →
      containsSeq maySupportPhrase.data
        (((tryInitialRangeRequest r resp).initialError.getD "").data) = true) := by
  rcases hcl : resp.contentLength with _ | m
  · constructor
    · simp [tryInitialRangeRequest, h200, hcl]
    · intro n hn
      exact absurd hn (by simp)
  · by_cases hm : 0 < m
    · constructor
      · simp [tryInitialRangeRequest, h200, hcl, hm]
      · intro n hn hpos
        simp [tryInitialRangeRequest, h200, hst, hcl, hm]
        decide
    · constructor
      · simp [tryInitialRangeRequest, h200, hcl, hm]
      · intro n hn hpos
        have hmn : m = n := by injection hn
        omega

/-- Claim C10 witness for the amended statement: `200 OK` carrying
`Content-Length: 1000` fails with the may-not-support-Range wording. -/
theorem C10_witness :
    (tryInitialRangeRequest emptyRangeReader respCL).initialError.isSome = true ∧
    containsSeq maySupportPhrase.data
      (((tryInitialRangeRequest emptyRangeReader respCL).initialError.getD "").data)
      = true := by
  have h := C10_amended_200_fails emptyRangeReader respCL rfl rfl
  exact ⟨h.1, h.2 1000 rfl (by decide)⟩

/-- Claim C4: `ExtractPartitionsFromPayload` removes and recreates `out_dir`
before the payload is validated, so the first two actions of every run are
`RemoveAll`/`MkdirAll`, and a rejected payload (bad magic, zero lengths,
delta) still leaves the directory destroyed, with no image file created. -/
theorem C4_outdir_destroyed_before_validation :
    ∀ (unmarshal : List Nat → Except String Manifest) (payload : List Nat)
      (names : List String) (dir : String) (o : FsOracle),
    (ExtractPartitionsFromPayloadEvents unmarshal payload names dir o).take 2
      = [Event.removeAll dir, Event.mkdirAll dir]
    ∧ (∀ e, InitPayloadInfo unmarshal payload = .error e →
        ExtractPartitionsFromPayloadEvents unmarshal payload names dir o
          = [Event.removeAll dir, Event.mkdirAll dir, Event.fatal e]) := by
  intro unmarshal payload names dir o
  constructor
  · rfl
  · intro e h
    simp [ExtractPartitionsFromPayloadEvents, h]

/-- Claim C4 witness: a payload with invalid magic is rejected, yet the run
already removed and recreated `out` and created nothing else. -/
theorem C4_witness :
    ExtractPartitionsFromPayloadEvents u3 [0, 1, 2] [] "out" oAll
      = [Event.removeAll "out", Event.mkdirAll "out",
         Event.fatal "invalid payload: invalid magic"] :=
  (C4_outdir_destroyed_before_validation u3 [0, 1, 2] [] "out" oAll).2
    "invalid payload: invalid magic" rfl

/-- Claim C7: a payload whose decoded manifest has `minor_version ≠ 0` makes
the parser fail with a message containing "delta payloads are not
supported", and the run ends at the fatal parser error with no partition
image file created. -/
theorem C7_delta_payload_rejected :
    ∀ (unmarshal : List Nat → Except String Manifest) (payload : List Nat)
      (m : Manifest) (names : List String) (dir : String) (o : FsOracle),
      hdrMagic payload = MAGIC →
      hdrManifestLen payload ≠ 0 →
      hdrSigLen payload ≠ 0 →
      24 < payload.length →
      unmarshal (readOpData payload 24 (hdrManifestLen payload)) = .ok m →
      m.minorVersion ≠ 0 →
      InitPayloadInfo unmarshal payload
        = .error "invalid payload: delta payloads are not supported, please use a full payload file"
      ∧ containsSeq "delta payloads are not supported".data
          "invalid payload: delta payloads are not supported, please use a full payload file".data
        = true
      ∧ ExtractPartitionsFromPayloadEvents unmarshal payload names dir o
        = [Event.removeAll dir, Event.mkdirAll dir,
           Event.fatal "invalid payload: delta payloads are not supported, please use a full payload file"] := by
  intro unmarshal payload m names dir o hmagic hml hsl hlen hu hminor
  have hinit : InitPayloadInfo unmarshal payload
      = .error "invalid payload: delta payloads are not supported, please use a full payload file" := by
    simp only [InitPayloadInfo]
    rw [if_neg (by simp [hmagic]), if_neg hml, if_neg hsl, if_neg (by omega), hu]
    simp [hminor]
  exact ⟨hinit, by decide, by simp [ExtractPartitionsFromPayloadEvents, hinit]⟩

/-- Claim C7 witness: the valid-header payload `p26` whose manifest decodes
(via `u7`) to `minor_version = 1`. -/
theorem C7_witness :
    InitPayloadInfo u7 p26
      = .error "invalid payload: delta payloads are not supported, please use a full payload file" :=
  (C7_delta_payload_rejected u7 p26 m7 [] "out" oAll (by decide) (by decide)
    (by decide) (by decide) rfl (by decide)).1

/-- Claim C8: with valid magic and non-zero manifest/signature lengths, a
decodable full-payload manifest parses successfully for ANY header version;
the version-warning flag is raised exactly when the version is not 2. -/
theorem C8_version_warning_only :
    ∀ (unmarshal : List Nat → Except String Manifest) (payload : List Nat)
      (m : Manifest),
      hdrMagic payload = MAGIC →
      hdrManifestLen payload ≠ 0 →
      hdrSigLen payload ≠ 0 →
      24 < payload.length →
      unmarshal (readOpData payload 24 (hdrManifestLen payload)) = .ok m →
      m.minorVersion = 0 →
      InitPayloadInfo unmarshal payload = .ok (m, hdrVersion payload != 2) := by
  intro unmarshal payload m hmagic hml hsl hlen hu hminor
  simp only [InitPayloadInfo]
  rw [if_neg (by simp [hmagic]), if_neg hml, if_neg hsl, if_neg (by omega), hu]
  simp [hminor]

/-- Claim C8 witness: the version-3 payload parses with the warning flag
set; the version-2 payload parses with it clear. -/
theorem C8_witness :
    InitPayloadInfo u8 p26v3 = .ok (m8, true) ∧
    InitPayloadInfo u8 p26 = .ok (m8, false) :=
  ⟨C8_version_warning_only u8 p26v3 m8 (by decide) (by decide) (by decide)
      (by decide) rfl (by decide),
   C8_version_warning_only u8 p26 m8 (by decide) (by decide) (by decide)
      (by decide) rfl (by decide)⟩

/-- The events of one partition contain no `partitionDone` marker (the
marker is appended by the partition loop itself). -/
theorem countP_done_extractPartitionEvents (o : FsOracle) (p : PartitionUpdate)
    (path : String) :
    ((extractPartitionEvents o p path).1).countP isPartitionDone = 0 := by
  rcases hc : o.createOk path with _ | _
  · simp [extractPartitionEvents, hc]
  · rcases ht : o.truncateOk path with _ | _
    · simp [extractPartitionEvents, hc, ht, isPartitionDone]
    · simp only [extractPartitionEvents, hc, ht]
      rw [List.countP_eq_zero]
      intro a ha
      rcases List.mem_cons.mp ha with rfl | hmem
      · simp [isPartitionDone]
      · rcases List.mem_map.mp hmem with ⟨op, _, rfl⟩
        rcases h : o.opOk op <;> simp [h, isPartitionDone]

/-- Every partition of the list contributes exactly one `partitionDone`
event, whatever the oracle decides. -/
theorem countP_done_partsEvents (o : FsOracle) (dir : String) :
    ∀ l : List PartitionUpdate,
      (partsEvents o dir l).countP isPartitionDone = l.length
  | [] => rfl
  | p :: rest => by
    simp only [partsEvents, List.countP_append]
    rw [countP_done_partsEvents o dir rest, countP_done_extractPartitionEvents]
    rcases (extractPartitionEvents o p (dir ++ "/" ++ p.partitionName ++ ".img")).2 with
      _ | e
    · simp [isPartitionDone, List.countP_cons]
      omega
    · simp [isPartitionDone, List.countP_cons]
      omega

/-- Claim C3 counterexample: with `os.Create` failing for `out/A.img` only,
the run does NOT terminate — the failure is logged as a partition error and
partition `B`'s image is still created afterwards. -/
theorem C3_counterexample :
    o3.createOk "out/A.img" = false ∧
    Event.partitionError "create out/A.img"
      ∈ ExtractPartitionsFromPayloadEvents u3 p26 [] "out" o3 ∧
    Event.createFile "out/B.img"
      ∈ ExtractPartitionsFromPayloadEvents u3 p26 [] "out" o3 := by
  decide

/-- Claim C3 as amended: a failing operation is logged and the partition's
other operations still run; a payload-parsing failure terminates the run
right after the `out_dir` preparation; a create/truncate failure aborts only
its own partition — it is logged and every remaining partition is still
processed (so the run is not terminated). -/
theorem C3_amended_failure_semantics :
    (∀ (unmarshal : List Nat → Except String Manifest) (payload : List Nat)
        (names : List String) (dir : String) (o : FsOracle) (e : String),
      InitPayloadInfo unmarshal payload = .error e →
      ExtractPartitionsFromPayloadEvents unmarshal payload names dir o
        = [Event.removeAll dir, Event.mkdirAll dir, Event.fatal e])
    ∧ (∀ (unmarshal : List Nat → Except String Manifest) (payload : List Nat)
        (names : List String) (dir : String) (o : FsOracle) (m : Manifest)
        (w : Bool),
      InitPayloadInfo unmarshal payload = .ok (m, w) →
      (ExtractPartitionsFromPayloadEvents unmarshal payload names dir o).countP
          isPartitionDone
        = (selectParts m.partitions names).length)
    ∧ (∀ (o : FsOracle) (p : PartitionUpdate) (path : String),
      o.createOk path = true → o.truncateOk path = true →
      ((extractPartitionEvents o p path).1).countP isOpEvent
        = p.operations.length) := by
  refine ⟨?_, ?_, ?_⟩
  · intro unmarshal payload names dir o e h
    simp [ExtractPartitionsFromPayloadEvents, h]
  · intro unmarshal payload names dir o m w h
    simp only [ExtractPartitionsFromPayloadEvents, h, List.countP_append,
      List.countP_cons, countP_done_partsEvents]
    simp [isPartitionDone]
  · intro o p path hc ht
    simp only [extractPartitionEvents, hc, ht]
    simp only [Bool.true_eq_false, if_false]
    rw [List.countP_cons_of_neg _ _ (by simp [isOpEvent])]
    rw [List.countP_eq_length.mpr]
    · rw [List.length_map]
      exact (List.perm_insertionSort opLE p.operations).length_eq
    · intro a ha
      rcases List.mem_map.mp ha with ⟨op, _, rfl⟩
      rcases o.opOk op <;> rfl

/-- Claim C3 witness for the amended statement: under the oracle that fails
`out/A.img`'s creation, both partitions still finish their loop iterations
(`partitionDone` count 2). -/
theorem C3_witness :
    (ExtractPartitionsFromPayloadEvents u3 p26 [] "out" o3).countP isPartitionDone
      = 2 :=
  C3_amended_failure_semantics.2.1 u3 p26 [] "out" o3 m3 false rfl

end PayloadExtract
